import Mathlib

/-!
Verification of the incremental-sync engine of a download-library tool
(`download_library.py`).  The Python source is shallowly embedded below:
pure helpers become Lean functions, the per-file / per-product / per-run
control flow becomes functions producing a trace of effect `Action`s
together with a `Flow` describing how control leaves the code (normal
return, `sys.exit()`, or an uncaught `AttributeError`), external
capabilities (HTTP fetch, URL signing, the byte-stream download, date
formatting, the current time) become explicit oracle parameters bundled
in `Env`, and the filesystem becomes an explicit map `FS` that the
actions of a trace are folded over.
-/

namespace DL

/-- `str.replace('+', '_')` as applied in `_clean_name`. -/
def replacePlus (l : List Char) : List Char :=
  l.map (fun c => if c = '+' then '_' else c)

/-- `str.replace(':', ' -')` as applied in `_clean_name` (after the `'+'`
replacement; `':'` maps to the two characters `' '` and `'-'`). -/
def replaceColon (l : List Char) : List Char :=
  l.flatMap (fun c => if c = ':' then [' ', '-'] else [c])

/-- The `allowed_chars` tuple of `_clean_name`. -/
def allowed_chars : List Char := [' ', '_', '.', '-', '[', ']']

/-- The keep-predicate of `_clean_name`'s loop:
`c.isalpha() or c.isdigit() or c in allowed_chars`.
(The Python predicates are Unicode-aware; the model uses the ASCII
letter/digit classes, which agree on all inputs considered here.) -/
def allowedPred (c : Char) : Bool :=
  c.isAlpha || c.isDigit || allowed_chars.contains c

/-- The character filter of `_clean_name`'s `for` loop. -/
def keepAllowed (l : List Char) : List Char := l.filter allowedPred

/-- Python `str.lstrip()` (drop leading whitespace). -/
def lstripWs (l : List Char) : List Char := l.dropWhile Char.isWhitespace

/-- Drop trailing characters satisfying `p` (Python `str.rstrip(...)`). -/
def rstripP (p : Char → Bool) (l : List Char) : List Char :=
  (l.reverse.dropWhile p).reverse

/-- Python `str.strip()`: drop leading and trailing whitespace. -/
def stripWs (l : List Char) : List Char := rstripP Char.isWhitespace (lstripWs l)

/-- Python `str.rstrip('.')`. -/
def rstripDot (l : List Char) : List Char := rstripP (fun c => c = '.') l

/-- `_clean_name(dirty_str)`: replace `'+'`/`':'`, keep only alphanumeric
and allowed characters, then `.strip().rstrip('.')`. -/
def _clean_name (s : String) : String :=
  String.mk (rstripDot (stripWs (keepAllowed (replaceColon (replacePlus s.data)))))

/-- Python `str.lower()` (ASCII model of it, matching `Char.toLower`). -/
def lowerStr (s : String) : String := String.mk (s.data.map Char.toLower)

/-- Split a character list on a separator character, Python
`str.split(sep)` style (`"".split(sep) == [""]`). -/
def splitOnChar (sep : Char) (l : List Char) : List (List Char) :=
  l.foldr
    (fun c acc =>
      match acc with
      | [] => [[c]]
      | a :: as => if c = sep then [] :: a :: as else (c :: a) :: as)
    [[]]

/-- Python `s.split(sep)[-1]`. -/
def lastAfter (sep : Char) (s : String) : String :=
  String.mk ((splitOnChar sep s.data).getLastD [])

/-- Python `s.split(sep)[0]`. -/
def firstBefore (sep : Char) (s : String) : String :=
  String.mk ((splitOnChar sep s.data).headD [])

/-- One row of the CSV cache.
Modelled from the spec: the `CsvCacheData` class lives in `data/cache.py`,
which is not under `src/`; §3 and §4.1 of the spec give its shape — a key
(container id, filename) plus `remote_modified`, `content_hash` and
`local_modified` fields, any of which may be absent.  Python's
`record['field']` on an absent field is modelled by `pyGet` below
(empty-string sentinel, per the "empty/sentinel record — never fails"
contract), and `'field' in record` by `Option.isSome`. -/
structure CsvCacheData where
  orderId : String
  filename : String
  remote_modified_date : Option String
  md5 : Option String
  local_modified_date : Option String
deriving DecidableEq, Repr

/-- Dictionary-style access on an optional field: the Cache Store contract
returns an empty sentinel for an absent field rather than failing. -/
def pyGet (o : Option String) : String := o.getD ""

/-- Modelled from the spec: `Cache.get_cache_item(container, filename)` of
`data/cache.py` (not under `src/`); §4.1: "`get(container_id, filename) ->
CacheRecord` (returns an empty/sentinel record if absent — never fails)". -/
def get_cache_item (cache : List CsvCacheData) (oid fn : String) : CsvCacheData :=
  (cache.find? (fun r => r.orderId = oid && r.filename = fn)).getD
    { orderId := oid, filename := fn, remote_modified_date := none,
      md5 := none, local_modified_date := none }

/-- Modelled from the spec: the membership test `cache_file_info in
self.cache_data_csv` (`data/cache.py`, not under `src/`); §3: "a record
exists in the store if and only if a file was ever successfully written
for that key" — membership is presence of the (container, filename) key. -/
def cache_contains (cache : List CsvCacheData) (oid fn : String) : Bool :=
  cache.any (fun r => r.orderId = oid && r.filename = fn)

/-- Outcome of streaming one response body to disk
(`file_ops.download_file`): it either completes, raises an I/O or stream
error, or is interrupted by the user (`KeyboardInterrupt`). -/
inductive DLOutcome
  | success
  | failure
  | interrupt
deriving DecidableEq, Repr

/-- Result of the trove signing request in `_get_trove_download_url`:
the request itself may raise (logged, `None` returned), the service may
answer `'_errors': 'Unauthorized'`, or a signed URL is returned. -/
inductive SignResult
  | failed
  | unauthorized
  | ok (url : String)
deriving DecidableEq, Repr

/-- The parts of a `requests` response the sync engine reads: the status
code and the `Last-Modified` header. -/
structure Resp where
  status : Nat
  lastModified : String
deriving DecidableEq, Repr

/-- `file_type` entry of `download_struct`: the per-content-type URL
mapping, `human_size`, and the optional `md5`. -/
structure FileType where
  url : List (String × String)
  human_size : Option String
  md5 : Option String
deriving DecidableEq, Repr

/-- One `download_type` entry of a product: a platform tag and its
`download_struct` list. -/
structure DownloadEntry where
  platform : String
  download_struct : List FileType
deriving DecidableEq, Repr

/-- One `subproduct` of an order. -/
structure ProductData where
  human_name : String
  downloads : List DownloadEntry
deriving DecidableEq, Repr

/-- The order record fetched by `_process_order_id`. -/
structure OrderData where
  human_name : String
  subproducts : List ProductData
deriving DecidableEq, Repr

/-- One trove `download` entry (`product['downloads'][platform]`). -/
structure TroveDownload where
  urlWeb : String
  machine_name : String
  uploaded_at : Option String
  timestamp : Option String
  md5 : Option String
deriving DecidableEq, Repr

/-- One trove product from the paginated catalog. -/
structure TroveProduct where
  human_name : String
  date_added : Option String
  downloads : List (String × TroveDownload)
deriving DecidableEq, Repr

/-- External capabilities consumed by the sync engine (spec §6): the HTTP
fetch of a file body (`None` models a raised request exception), the
download-to-disk outcome for a URL, the trove signing request, the order
fetch, the two pure date conversions used to build rename suffixes
(`datetime.strptime(...).strftime('%Y-%m-%d')` on an HTTP date and
`time.strftime('%Y-%m-%d', time.localtime(int(...)))` on an epoch
string), and the current time stamp. -/
structure Env where
  fetch : String → Option Resp
  dl : String → DLOutcome
  sign : String → String → SignResult
  fetchOrder : String → Option OrderData
  fmtHttp : String → String
  fmtEpoch : String → String
  now : String

/-- Effects the engine performs, recorded as a trace: a file-body fetch
attempt, a trove signing request, the rename-aside of an old file, a
body partially written to disk, a completed write, a file removal, and a
completion event placed on the cache writer's queue. -/
inductive Action
  | fetchBody (url : String)
  | signRequest (machine filename : String)
  | renameOld (path dateStr : String)
  | writePart (path : String)
  | writeFile (path tag : String)
  | removeFile (path : String)
  | queuePut (rec : CsvCacheData)
deriving DecidableEq, Repr

/-- How control leaves a piece of the engine: a normal return, a
`sys.exit()` (unauthorized trove sign, or `KeyboardInterrupt` during a
download), or the uncaught `AttributeError` raised by
`multiprocess_queue.put` when no queue was passed. -/
inductive Flow
  | normal
  | sysExit
  | attrError
deriving DecidableEq, Repr

/-- Modelled from the spec: `file_ops.create_product_folder` (`iops` is
not under `src/`); §6: "`createProductFolder(container_name,
product_name) -> path`".  Modelled as the joined path. -/
def create_product_folder (container product : String) : String :=
  container ++ "/" ++ product

/-- Modelled from the spec: the path `file_ops.rename_old_file` renames
an old file to (`iops` is not under `src/`); §4.3: "rename the existing
file at `destination_path` to embed the hint as a suffix before the
extension", §8: `game.zip` becomes `game [2023-01-01].zip`. -/
def renamedPath (p d : String) : String :=
  let segs := splitOnChar '.' p.data
  if segs.length ≤ 1 then
    String.mk (p.data ++ (" [" ++ d ++ "]").data)
  else
    String.mk ((List.intercalate ['.'] segs.dropLast)
      ++ (" [" ++ d ++ "]").data ++ '.' :: segs.getLastD [])

/-- `_process_download(open_r, cache_data, local_filename,
rename_date_str, multiprocess_queue)`.  The open response becomes the
pair (download outcome, content tag = source URL); `hasQueue` records
whether a `multiprocess_queue` was passed (the trove caller passes
none).  If a rename date is set the old file is renamed aside first;
then the body is written; on an error or interrupt the broken file is
removed (`os.remove`) and an interrupt escalates to `sys.exit()`; on
success the record gets `local_modified_date := now` and is put on the
queue — with no queue, `None.put` raises `AttributeError`. -/
def process_download (outcome : DLOutcome) (cache_data : CsvCacheData)
    (local_filename tag : String) (rename_date_str : Option String)
    (hasQueue : Bool) (now : String) : List Action × Flow :=
  let pre : List Action :=
    match rename_date_str with
    | some d => [Action.renameOld local_filename d]
    | none => []
  match outcome with
  | DLOutcome.success =>
    let cd := { cache_data with local_modified_date := some now }
    if hasQueue then
      (pre ++ [Action.writeFile local_filename tag, Action.queuePut cd], Flow.normal)
    else
      (pre ++ [Action.writeFile local_filename tag], Flow.attrError)
  | DLOutcome.failure =>
    (pre ++ [Action.writePart local_filename, Action.removeFile local_filename],
      Flow.normal)
  | DLOutcome.interrupt =>
    (pre ++ [Action.writePart local_filename, Action.removeFile local_filename],
      Flow.sysExit)

/-- Sequential execution of one step per list element, appending traces;
a step whose flow is not `normal` (an uncaught `sys.exit()` or
`AttributeError`) propagates and stops the iteration, mirroring how such
an exception escapes the Python `for` loops. -/
def foldSteps (f : A → List Action × Flow) : List A → List Action × Flow
  | [] => ([], Flow.normal)
  | x :: xs =>
    let r := f x
    if r.2 = Flow.normal then
      let rest := foldSteps f xs
      (r.1 ++ rest.1, rest.2)
    else r

/-- `file_type['url'][content_type]` — lookup in the per-content-type URL
dictionary; `none` models the `KeyError` branch. -/
def lookup_url (m : List (String × String)) (ct : String) : Option String :=
  (m.find? (fun kv => kv.1 = ct)).map (fun kv => kv.2)

/-- The filename the non-trove path derives from a URL:
`url.split('?')[0].split('/')[-1]`. -/
def urlFilename (url : String) : String := lastAfter '/' (firstBefore '?' url)

/-- `_should_download_platform(platform)`. -/
def should_download_platform (platform_include : List String) (platform : String) : Bool :=
  let p := lowerStr platform
  if !platform_include.isEmpty && !platform_include.contains p then false else true

/-- `_should_download_file_type(ext)`. -/
def should_download_file_type (ext_include ext_exclude : List String) (ext : String) : Bool :=
  let e := lowerStr ext
  if !ext_include.isEmpty then ext_include.contains e
  else if !ext_exclude.isEmpty then !ext_exclude.contains e
  else true

/-- The run configuration held on `DownloadLibrary` after `__init__`. -/
structure Config where
  ext_include : List String
  ext_exclude : List String
  platform_include : List String
  content_types : List String
  update : Bool
deriving DecidableEq, Repr

/-- `__init__`: `ext_include`/`ext_exclude` default to `[]` and are
lower-cased. -/
def init_ext_list (raw : Option (List String)) : List String :=
  match raw with
  | none => []
  | some l => l.map lowerStr

/-- `__init__`: `platform_include` becomes `[]` when it is `None` or
contains `'all'` (checked before lower-casing), and is lower-cased
otherwise. -/
def init_platform_include (raw : Option (List String)) : List String :=
  match raw with
  | none => []
  | some l => if l.contains "all" then [] else l.map lowerStr

/-- `__init__`: `content_types` defaults to `['web']` and is lower-cased. -/
def init_content_types (raw : Option (List String)) : List String :=
  match raw with
  | none => ["web"]
  | some l => l.map lowerStr

/-- The body of the `for content_type in self.content_types` loop of
`_process_product`: resolve the URL for this content type (a `KeyError`
only logs), derive filename and extension, apply the extension filter,
skip when the key is cached and `update` is off, set the record's md5,
fetch the file body (an exception or a non-200 status logs and skips),
and when the `Last-Modified` token differs from the cached one compute
the rename date from the previous token, store the new token, and run
`_process_download` with the queue attached. -/
def process_content_type (env : Env) (cfg : Config) (cache : List CsvCacheData)
    (order_id product_folder : String) (ft : FileType) (ct : String) :
    List Action × Flow :=
  match lookup_url ft.url ct with
  | none => ([], Flow.normal)
  | some url =>
    let url_filename := urlFilename url
    let ext := lastAfter '.' url_filename
    if should_download_file_type cfg.ext_include cfg.ext_exclude ext = false then
      ([], Flow.normal)
    else
      let local_filename := product_folder ++ "/" ++ url_filename
      let cache_file_info := get_cache_item cache order_id url_filename
      if cache_contains cache order_id url_filename && !cfg.update then
        ([], Flow.normal)
      else
        let cache_file_info := { cache_file_info with md5 := ft.md5 }
        match env.fetch url with
        | none => ([Action.fetchBody url], Flow.normal)
        | some resp =>
          if resp.status ≠ 200 then ([Action.fetchBody url], Flow.normal)
          else if resp.lastModified ≠ pyGet cache_file_info.remote_modified_date then
            let last_modified := cache_file_info.remote_modified_date.map env.fmtHttp
            let cache_file_info :=
              { cache_file_info with remote_modified_date := some resp.lastModified }
            let r := process_download (env.dl url) cache_file_info local_filename url
              last_modified true env.now
            (Action.fetchBody url :: r.1, r.2)
          else ([Action.fetchBody url], Flow.normal)

/-- One `download_type` entry of `_process_product`: the platform filter,
then the nested `download_struct` × `content_types` loops. -/
def process_download_entry (env : Env) (cfg : Config) (cache : List CsvCacheData)
    (order_id bundle_title product_title : String) (de : DownloadEntry) :
    List Action × Flow :=
  if should_download_platform cfg.platform_include de.platform = false then
    ([], Flow.normal)
  else
    let product_folder := create_product_folder bundle_title product_title
    foldSteps
      (fun ft => foldSteps
        (process_content_type env cfg cache order_id product_folder ft)
        cfg.content_types)
      de.download_struct

/-- `_process_product(order_id, bundle_title, product, queue)`. -/
def process_product (env : Env) (cfg : Config) (cache : List CsvCacheData)
    (order_id bundle_title : String) (p : ProductData) : List Action × Flow :=
  let product_title := _clean_name p.human_name
  foldSteps
    (process_download_entry env cfg cache order_id bundle_title product_title)
    p.downloads

/-- `_process_order_id(order_id, queue)`: fetch the order record (an
exception logs and returns) and process each subproduct. -/
def process_order_id (env : Env) (cfg : Config) (cache : List CsvCacheData)
    (order_id : String) : List Action × Flow :=
  match env.fetchOrder order_id with
  | none => ([], Flow.normal)
  | some od =>
    foldSteps
      (process_product env cfg cache order_id (_clean_name od.human_name))
      od.subproducts

/-- The non-trove branch of `start`: one work unit per purchase key.  The
source dispatches the units onto a process pool; the model executes them
sequentially, which preserves each unit's own control flow and the fact
that a `sys.exit()` terminates the run. -/
def run_orders (env : Env) (cfg : Config) (cache : List CsvCacheData)
    (purchase_keys : List String) : List Action × Flow :=
  foldSteps (process_order_id env cfg cache) purchase_keys

/-- Python `a or b` on optional strings: an empty string is falsy and
falls through, as in the `uploaded_at` chain of `_process_trove_product`. -/
def pyOrStr (a b : Option String) : Option String :=
  match a with
  | some s => if s = "" then b else some s
  | none => b

/-- The body of the `for platform, download in product['downloads']`
loop of `_process_trove_product`: platform and extension filters, the
cached-skip, then — when both the upload token and the md5 differ from
the cached ones — the record is updated (note: before the rename date is
computed), a signed URL is requested (a failed request logs and skips,
an unauthorized answer is fatal), the body stream is opened, the rename
date is derived from the record's `remote_modified_date`, and
`_process_download` runs with no queue argument. -/
def process_trove_entry (env : Env) (cfg : Config) (cache : List CsvCacheData)
    (title : String) (date_added : Option String) (pd : String × TroveDownload) :
    List Action × Flow :=
  if should_download_platform cfg.platform_include pd.1 = false then
    ([], Flow.normal)
  else
    let web_name := lastAfter '/' pd.2.urlWeb
    let ext := lastAfter '.' web_name
    if should_download_file_type cfg.ext_include cfg.ext_exclude ext = false then
      ([], Flow.normal)
    else
      let uploaded_at :=
        (pyOrStr pd.2.uploaded_at (pyOrStr pd.2.timestamp
          (some (date_added.getD "0")))).getD "0"
      let md5 := pd.2.md5.getD "UNKNOWN_MD5"
      let cache_file_info := get_cache_item cache "trove" web_name
      if cache_contains cache "trove" web_name && !cfg.update then
        ([], Flow.normal)
      else if uploaded_at ≠ pyGet cache_file_info.remote_modified_date ∧
          md5 ≠ pyGet cache_file_info.md5 then
        let cache_file_info :=
          { cache_file_info with
            remote_modified_date := some uploaded_at
            md5 := some md5 }
        let product_folder := create_product_folder "Humble Trove" title
        let local_filepath := product_folder ++ "/" ++ web_name
        match env.sign pd.2.machine_name web_name with
        | SignResult.failed =>
          ([Action.signRequest pd.2.machine_name web_name], Flow.normal)
        | SignResult.unauthorized =>
          ([Action.signRequest pd.2.machine_name web_name], Flow.sysExit)
        | SignResult.ok signed_url =>
          match env.fetch signed_url with
          | none =>
            ([Action.signRequest pd.2.machine_name web_name,
              Action.fetchBody signed_url], Flow.normal)
          | some _ =>
            let uploaded_at2 :=
              if cache_file_info.remote_modified_date.isSome then
                some (env.fmtEpoch (pyGet cache_file_info.remote_modified_date))
              else none
            let r := process_download (env.dl signed_url) cache_file_info
              local_filepath signed_url uploaded_at2 false env.now
            (Action.signRequest pd.2.machine_name web_name ::
              Action.fetchBody signed_url :: r.1, r.2)
      else ([], Flow.normal)

/-- `_process_trove_product(title, product)`. -/
def process_trove_product (env : Env) (cfg : Config) (cache : List CsvCacheData)
    (title : String) (p : TroveProduct) : List Action × Flow :=
  foldSteps (process_trove_entry env cfg cache title p.date_added) p.downloads

/-- One iteration of the trove loop of `start`: clean the product name
into the title, then process the product. -/
def trove_step (env : Env) (cfg : Config) (cache : List CsvCacheData)
    (p : TroveProduct) : List Action × Flow :=
  process_trove_product env cfg cache (_clean_name p.human_name) p

/-- The trove branch of `start`: process every catalog product in order. -/
def run_trove (env : Env) (cfg : Config) (cache : List CsvCacheData)
    (ps : List TroveProduct) : List Action × Flow :=
  foldSteps (trove_step env cfg cache) ps

/-- A file on disk is either fully written content (tagged by its
source) or a truncated body left by an aborted stream. -/
inductive FVal
  | full (tag : String)
  | part
deriving DecidableEq, Repr

/-- The local file tree: a map from path to file contents. -/
def FS : Type := String → Option FVal

/-- Effect of one traced action on the file tree.  A rename moves the
file when the source exists and is a no-op otherwise (`rename_old_file`
is best-effort per spec §4.3); a removal of an absent path is a no-op
(the `OSError` is swallowed). -/
def applyAction (fs : FS) : Action → FS
  | Action.renameOld p d =>
    match fs p with
    | none => fs
    | some v => fun q =>
        if q = renamedPath p d then some v else if q = p then none else fs q
  | Action.writePart p => fun q => if q = p then some FVal.part else fs q
  | Action.writeFile p tag => fun q => if q = p then some (FVal.full tag) else fs q
  | Action.removeFile p => fun q => if q = p then none else fs q
  | _ => fs

/-- Effect of a whole trace on the file tree. -/
def applyActions (fs : FS) (l : List Action) : FS := l.foldl applyAction fs


lemma foldSteps_nil_of_all {A : Type} {f : A → List Action × Flow} :
    ∀ {l : List A}, (∀ x ∈ l, f x = ([], Flow.normal)) →
    foldSteps f l = ([], Flow.normal)
  | [], _ => rfl
  | x :: xs, h => by
    have hx := h x (List.mem_cons_self x xs)
    have hxs := foldSteps_nil_of_all (fun y hy => h y (List.mem_cons_of_mem x hy))
    simp [foldSteps, hx, hxs]

lemma foldSteps_cons_stop {A : Type} {f : A → List Action × Flow} {x : A}
    (xs : List A) (hx : (f x).2 ≠ Flow.normal) :
    foldSteps f (x :: xs) = f x := by
  simp [foldSteps, hx]

lemma foldSteps_append_of_normal {A : Type} {f : A → List Action × Flow} :
    ∀ {l1 : List A} (l2 : List A), (∀ q ∈ l1, (f q).2 = Flow.normal) →
    foldSteps f (l1 ++ l2) =
      ((foldSteps f l1).1 ++ (foldSteps f l2).1, (foldSteps f l2).2)
  | [], l2, _ => by simp [foldSteps]
  | x :: xs, l2, h => by
    have hx := h x (List.mem_cons_self x xs)
    have ih : foldSteps f (xs ++ l2)
        = ((foldSteps f xs).1 ++ (foldSteps f l2).1, (foldSteps f l2).2) :=
      foldSteps_append_of_normal l2 (fun y hy => h y (List.mem_cons_of_mem x hy))
    simp [List.cons_append, foldSteps, hx, ih, List.append_assoc]

lemma foldSteps_prefix_stop {A : Type} {f : A → List Action × Flow} :
    ∀ (l1 : List A) (x : A) (l2 : List A),
    (∀ q ∈ l1, (f q).2 = Flow.normal) → (f x).2 ≠ Flow.normal →
    foldSteps f (l1 ++ x :: l2) = ((foldSteps f l1).1 ++ (f x).1, (f x).2)
  | [], x, l2, _, hx => by simp [foldSteps, hx]
  | y :: ys, x, l2, h, hx => by
    have hy := h y (List.mem_cons_self y ys)
    have ih := foldSteps_prefix_stop ys x l2
      (fun q hq => h q (List.mem_cons_of_mem y hq)) hx
    simp [List.cons_append, foldSteps, hy, ih, List.append_assoc]

lemma content_type_cached_skip (env : Env) (cfg : Config)
    (cache : List CsvCacheData) (oid folder : String) (ft : FileType)
    (ct : String) (hupd : cfg.update = false)
    (h : ∀ url, lookup_url ft.url ct = some url →
      cache_contains cache oid (urlFilename url) = true) :
    process_content_type env cfg cache oid folder ft ct = ([], Flow.normal) := by
  cases hu : lookup_url ft.url ct with
  | none => simp [process_content_type, hu]
  | some url =>
    have hc := h url hu
    simp [process_content_type, hu, hc, hupd]

lemma trove_entry_cached_skip (env : Env) (cfg : Config)
    (cache : List CsvCacheData) (title : String) (da : Option String)
    (pd : String × TroveDownload) (hupd : cfg.update = false)
    (hc : cache_contains cache "trove" (lastAfter '/' pd.2.urlWeb) = true) :
    process_trove_entry env cfg cache title da pd = ([], Flow.normal) := by
  simp [process_trove_entry, hc, hupd]

/-- The filenames `_process_product` enumerates for a product: for each
download type, each file entry, each configured content type with a URL
present, the name `url.split('?')[0].split('/')[-1]`. -/
def product_filenames (cfg : Config) (p : ProductData) : List String :=
  p.downloads.flatMap (fun de =>
    de.download_struct.flatMap (fun ft =>
      cfg.content_types.filterMap (fun ct => (lookup_url ft.url ct).map urlFilename)))

/-- The filenames `_process_trove_product` enumerates:
`download['url']['web'].split('/')[-1]` per platform entry. -/
def trove_filenames (tp : TroveProduct) : List String :=
  tp.downloads.map (fun pd => lastAfter '/' pd.2.urlWeb)


/-- C1: with the force-update option off, every file whose (container,
filename) key already has a record in the loaded cache store is skipped
without fetching the file body — per enumerated file in both the order
path and the trove path — and consequently a product all of whose
enumerated filenames are cached produces an empty trace (zero
downloads), again on both paths. -/
theorem cached_keys_skipped_without_fetch
    (env : Env) (cfg : Config) (cache : List CsvCacheData)
    (hupd : cfg.update = false) :
    (∀ oid folder ft ct url,
        lookup_url ft.url ct = some url →
        cache_contains cache oid (urlFilename url) = true →
        process_content_type env cfg cache oid folder ft ct = ([], Flow.normal))
    ∧ (∀ title da (pd : String × TroveDownload),
        cache_contains cache "trove" (lastAfter '/' pd.2.urlWeb) = true →
        process_trove_entry env cfg cache title da pd = ([], Flow.normal))
    ∧ (∀ oid bt p,
        (∀ fn ∈ product_filenames cfg p, cache_contains cache oid fn = true) →
        process_product env cfg cache oid bt p = ([], Flow.normal))
    ∧ (∀ title tp,
        (∀ fn ∈ trove_filenames tp, cache_contains cache "trove" fn = true) →
        process_trove_product env cfg cache title tp = ([], Flow.normal)) := by
  refine ⟨?_, ?_, ?_, ?_⟩
  · intro oid folder ft ct url hu hc
    exact content_type_cached_skip env cfg cache oid folder ft ct hupd
      (fun u hu2 => by rw [hu] at hu2; cases hu2; exact hc)
  · intro title da pd hc
    exact trove_entry_cached_skip env cfg cache title da pd hupd hc
  · intro oid bt p h
    unfold process_product
    apply foldSteps_nil_of_all
    intro de hde
    unfold process_download_entry
    by_cases hp : should_download_platform cfg.platform_include de.platform = false
    · simp [hp]
    · simp only [hp, if_false]
      apply foldSteps_nil_of_all
      intro ft hft
      apply foldSteps_nil_of_all
      intro ct hct
      apply content_type_cached_skip env cfg cache oid _ ft ct hupd
      intro url hu
      apply h
      exact List.mem_flatMap.mpr ⟨de, hde, List.mem_flatMap.mpr
        ⟨ft, hft, List.mem_filterMap.mpr ⟨ct, hct, by rw [hu]; rfl⟩⟩⟩
  · intro title tp h
    unfold process_trove_product
    apply foldSteps_nil_of_all
    intro pd hpd
    exact trove_entry_cached_skip env cfg cache title tp.date_added pd hupd
      (h _ (List.mem_map.mpr ⟨pd, hpd, rfl⟩))

/-- A fully concrete environment for witnesses: every fetch answers 200
with header token `"LM2"`, every download succeeds, signing succeeds. -/
def fixEnv : Env := {
  fetch := fun _ => some { status := 200, lastModified := "LM2" }
  dl := fun _ => DLOutcome.success
  sign := fun _ _ => SignResult.ok "https://signed/file"
  fetchOrder := fun _ => none
  fmtHttp := fun s => s ++ "-d"
  fmtEpoch := fun s => s ++ "-e"
  now := "NOW" }

/-- Concrete configuration for witnesses: no filters, default content
types, update off. -/
def fixCfg : Config := {
  ext_include := []
  ext_exclude := []
  platform_include := []
  content_types := ["web"]
  update := false }

/-- Concrete cache for witnesses: one order record and one trove record. -/
def fixCache : List CsvCacheData :=
  [{ orderId := "o1", filename := "game.zip", remote_modified_date := some "LM1",
     md5 := some "aaa", local_modified_date := some "T0" },
   { orderId := "trove", filename := "x.zip", remote_modified_date := some "1000",
     md5 := some "mmm", local_modified_date := some "T0" }]

/-- Concrete product whose single enumerated filename is `game.zip`. -/
def fixProduct : ProductData :=
  ⟨"Game", [⟨"windows", [⟨[("web", "http://cdn/game.zip?k=1")], some "5 MB", some "bbb"⟩]⟩]⟩

/-- Concrete trove product whose single enumerated filename is `x.zip`. -/
def fixTroveProduct : TroveProduct :=
  ⟨"X", some "900",
    [("windows", ⟨"http://cdn/dir/x.zip", "mx", some "2000", none, some "nnn"⟩)]⟩

theorem cached_keys_skipped_without_fetch_witness :
    process_product fixEnv fixCfg fixCache "o1" "B" fixProduct = ([], Flow.normal)
    ∧ process_trove_product fixEnv fixCfg fixCache "X" fixTroveProduct
        = ([], Flow.normal) := by
  have h := cached_keys_skipped_without_fetch fixEnv fixCfg fixCache rfl
  exact ⟨h.2.2.1 "o1" "B" fixProduct (by decide),
         h.2.2.2 "X" fixTroveProduct (by decide)⟩


/-- C2: on the non-trove path, for a file with a cached record that the
change check reaches (record present, update forced, body request
answered 200), if the remote `Last-Modified` token equals the cached
`remote_modified_date` the file is left alone: the trace holds only the
body fetch — no rename, no write to disk, no partial write, and no
completion event for that file. -/
theorem token_equality_means_unchanged
    (env : Env) (cfg : Config) (cache : List CsvCacheData)
    (oid folder : String) (ft : FileType) (ct url lm : String)
    (hurl : lookup_url ft.url ct = some url)
    (hext : should_download_file_type cfg.ext_include cfg.ext_exclude
      (lastAfter '.' (urlFilename url)) = true)
    (hcon : cache_contains cache oid (urlFilename url) = true)
    (hupd : cfg.update = true)
    (hfetch : env.fetch url = some { status := 200, lastModified := lm })
    (hcache : (get_cache_item cache oid (urlFilename url)).remote_modified_date
      = some lm) :
    process_content_type env cfg cache oid folder ft ct
      = ([Action.fetchBody url], Flow.normal)
    ∧ (∀ p d, Action.renameOld p d
        ∉ (process_content_type env cfg cache oid folder ft ct).1)
    ∧ (∀ p tag, Action.writeFile p tag
        ∉ (process_content_type env cfg cache oid folder ft ct).1)
    ∧ (∀ r, Action.queuePut r
        ∉ (process_content_type env cfg cache oid folder ft ct).1) := by
  have heq : process_content_type env cfg cache oid folder ft ct
      = ([Action.fetchBody url], Flow.normal) := by
    simp [process_content_type, hurl, hext, hcon, hupd, hfetch, hcache, pyGet]
  refine ⟨heq, ?_, ?_, ?_⟩ <;> rw [heq] <;> simp

/-- The single `file_type` entry used by the content-step witnesses. -/
def fixFT : FileType :=
  ⟨[("web", "http://cdn/game.zip?k=1")], some "5 MB", some "bbb"⟩

/-- Environment whose fetches answer with the already-cached token. -/
def fixEnvEq : Env := { fixEnv with
  fetch := fun _ => some { status := 200, lastModified := "LM1" } }

/-- The witness configuration with update forced on. -/
def fixCfgUpd : Config := { fixCfg with update := true }

theorem token_equality_means_unchanged_witness :
    process_content_type fixEnvEq fixCfgUpd fixCache "o1" "B/Game" fixFT "web"
      = ([Action.fetchBody "http://cdn/game.zip?k=1"], Flow.normal) :=
  (token_equality_means_unchanged fixEnvEq fixCfgUpd fixCache "o1" "B/Game"
    fixFT "web" "http://cdn/game.zip?k=1" "LM1" (by decide) (by decide)
    (by decide) rfl rfl (by decide)).1


/-- C5: on the trove path, when a cached record is re-checked (record
present, update forced) and the remote upload token differs from the
cached one but the remote md5 equals the cached md5, the `and` of the
change test is false, so the file is treated as unchanged: no signing
request, no fetch, no write — an empty trace. -/
theorem trove_md5_match_not_redownloaded
    (env : Env) (cfg : Config) (cache : List CsvCacheData)
    (title : String) (da : Option String) (pd : String × TroveDownload)
    (hplat : should_download_platform cfg.platform_include pd.1 = true)
    (hext : should_download_file_type cfg.ext_include cfg.ext_exclude
      (lastAfter '.' (lastAfter '/' pd.2.urlWeb)) = true)
    (hcon : cache_contains cache "trove" (lastAfter '/' pd.2.urlWeb) = true)
    (hupd : cfg.update = true)
    (htok : (pyOrStr pd.2.uploaded_at (pyOrStr pd.2.timestamp
        (some (da.getD "0")))).getD "0"
      ≠ pyGet (get_cache_item cache "trove"
        (lastAfter '/' pd.2.urlWeb)).remote_modified_date)
    (hmd5 : pd.2.md5.getD "UNKNOWN_MD5"
      = pyGet (get_cache_item cache "trove" (lastAfter '/' pd.2.urlWeb)).md5) :
    process_trove_entry env cfg cache title da pd = ([], Flow.normal) := by
  have hne := htok
  simp [process_trove_entry, hplat, hext, hcon, hupd, hmd5]

/-- Trove download entry for the md5-match witness: its token differs
from the cached `"1000"` but its md5 equals the cached `"mmm"`. -/
def fixTdMd5 : TroveDownload :=
  ⟨"http://cdn/dir/x.zip", "mx", some "2000", none, some "mmm"⟩

theorem trove_md5_match_not_redownloaded_witness :
    process_trove_entry fixEnv fixCfgUpd fixCache "X" none ("windows", fixTdMd5)
      = ([], Flow.normal) :=
  trove_md5_match_not_redownloaded fixEnv fixCfgUpd fixCache "X" none
    ("windows", fixTdMd5) (by decide) (by decide) (by decide) rfl
    (by decide) (by decide)

/-- C7: an unauthorized answer to a trove signing request is fatal:
the entry's processing stops at the signing request with `sys.exit()`
(no fetch, no write), the remaining entries of the product are never
reached, and at run level no product after the failing one is processed
— the run's trace ends with the failing product's trace. -/
theorem trove_unauthorized_aborts_run
    (env : Env) (cfg : Config) (cache : List CsvCacheData)
    (title : String) (da : Option String) (pd : String × TroveDownload)
    (hplat : should_download_platform cfg.platform_include pd.1 = true)
    (hext : should_download_file_type cfg.ext_include cfg.ext_exclude
      (lastAfter '.' (lastAfter '/' pd.2.urlWeb)) = true)
    (hskip : (cache_contains cache "trove" (lastAfter '/' pd.2.urlWeb)
      && !cfg.update) = false)
    (htok : (pyOrStr pd.2.uploaded_at (pyOrStr pd.2.timestamp
        (some (da.getD "0")))).getD "0"
      ≠ pyGet (get_cache_item cache "trove"
        (lastAfter '/' pd.2.urlWeb)).remote_modified_date)
    (hmd5 : pd.2.md5.getD "UNKNOWN_MD5"
      ≠ pyGet (get_cache_item cache "trove" (lastAfter '/' pd.2.urlWeb)).md5)
    (hsign : env.sign pd.2.machine_name (lastAfter '/' pd.2.urlWeb)
      = SignResult.unauthorized) :
    process_trove_entry env cfg cache title da pd
      = ([Action.signRequest pd.2.machine_name (lastAfter '/' pd.2.urlWeb)],
         Flow.sysExit)
    ∧ (∀ (hn : String) (rest : List (String × TroveDownload)),
        process_trove_product env cfg cache title ⟨hn, da, pd :: rest⟩
          = ([Action.signRequest pd.2.machine_name (lastAfter '/' pd.2.urlWeb)],
             Flow.sysExit))
    ∧ (∀ (l1 l2 : List TroveProduct) (p : TroveProduct),
        (∀ q ∈ l1, (trove_step env cfg cache q).2 = Flow.normal) →
        (trove_step env cfg cache p).2 = Flow.sysExit →
        run_trove env cfg cache (l1 ++ p :: l2)
          = ((run_trove env cfg cache l1).1
              ++ (trove_step env cfg cache p).1,
             Flow.sysExit)) := by
  have hentry : process_trove_entry env cfg cache title da pd
      = ([Action.signRequest pd.2.machine_name (lastAfter '/' pd.2.urlWeb)],
         Flow.sysExit) := by
    simp [process_trove_entry, hplat, hext, hskip, hsign, htok, hmd5]
  have hne : (process_trove_entry env cfg cache title da pd).2 ≠ Flow.normal := by
    rw [hentry]; simp
  refine ⟨hentry, ?_, ?_⟩
  · intro hn rest
    show foldSteps (process_trove_entry env cfg cache title da) (pd :: rest) = _
    rw [foldSteps_cons_stop rest hne]
    exact hentry
  · intro l1 l2 p h1 h2
    have hne2 : (trove_step env cfg cache p).2 ≠ Flow.normal := by
      rw [h2]; simp
    have key := foldSteps_prefix_stop l1 p l2 h1 hne2
    rw [← h2]
    exact key

/-- Environment whose signing endpoint reports an unauthorized account. -/
def fixEnvUnauth : Env := { fixEnv with
  sign := fun _ _ => SignResult.unauthorized }

theorem trove_unauthorized_aborts_run_witness :
    process_trove_entry fixEnvUnauth fixCfg [] "X" (some "900")
        ("windows", ⟨"http://cdn/dir/x.zip", "mx", some "2000", none, some "nnn"⟩)
      = ([Action.signRequest "mx" "x.zip"], Flow.sysExit)
    ∧ run_trove fixEnvUnauth fixCfg [] [fixTroveProduct, fixTroveProduct]
      = ([Action.signRequest "mx" "x.zip"], Flow.sysExit) := by
  have h := trove_unauthorized_aborts_run fixEnvUnauth fixCfg [] "X" (some "900")
    ("windows", ⟨"http://cdn/dir/x.zip", "mx", some "2000", none, some "nnn"⟩)
    (by decide) (by decide) (by decide) (by decide) (by decide) rfl
  refine ⟨h.1, ?_⟩
  exact h.2.2 [] [fixTroveProduct] fixTroveProduct
    (by intro q hq; exact absurd hq (List.not_mem_nil q)) (by decide)

/-- C8: a `KeyboardInterrupt` while a file's body is being written: the
download step removes the broken file (the canonical path holds no file
afterwards), puts nothing on the completion queue, and escalates to
`sys.exit()`; the product loop stops at that download entry (no next
file), and the run loop stops at that work unit (no next unit). -/
theorem keyboard_interrupt_stops_run :
    (∀ (cd : CsvCacheData) (p tag : String) (hint : Option String)
      (hq : Bool) (now : String) (fs : FS),
        (process_download DLOutcome.interrupt cd p tag hint hq now).2
          = Flow.sysExit
        ∧ Action.removeFile p
          ∈ (process_download DLOutcome.interrupt cd p tag hint hq now).1
        ∧ applyActions fs
            (process_download DLOutcome.interrupt cd p tag hint hq now).1 p
          = none
        ∧ ∀ r, Action.queuePut r
          ∉ (process_download DLOutcome.interrupt cd p tag hint hq now).1)
    ∧ (∀ (env : Env) (cfg : Config) (cache : List CsvCacheData)
        (oid bt : String) (p : ProductData) (de : DownloadEntry)
        (rest : List DownloadEntry),
        p.downloads = de :: rest →
        (process_download_entry env cfg cache oid bt
          (_clean_name p.human_name) de).2 = Flow.sysExit →
        process_product env cfg cache oid bt p
          = process_download_entry env cfg cache oid bt
              (_clean_name p.human_name) de)
    ∧ (∀ (env : Env) (cfg : Config) (cache : List CsvCacheData)
        (l1 l2 : List String) (k : String),
        (∀ q ∈ l1, (process_order_id env cfg cache q).2 = Flow.normal) →
        (process_order_id env cfg cache k).2 = Flow.sysExit →
        run_orders env cfg cache (l1 ++ k :: l2)
          = ((run_orders env cfg cache l1).1
              ++ (process_order_id env cfg cache k).1,
             Flow.sysExit)) := by
  refine ⟨?_, ?_, ?_⟩
  · intro cd p tag hint hq now fs
    refine ⟨?_, ?_, ?_, ?_⟩
    · cases hint <;> simp [process_download]
    · cases hint <;> simp [process_download]
    · cases hint with
      | none => simp [process_download, applyActions, applyAction]
      | some d =>
        cases h : fs p <;>
          simp [process_download, applyActions, applyAction, h]
    · intro r
      cases hint <;> simp [process_download]
  · intro env cfg cache oid bt p de rest hdl hde
    have hne3 : (process_download_entry env cfg cache oid bt
        (_clean_name p.human_name) de).2 ≠ Flow.normal := by
      rw [hde]; simp
    show foldSteps (process_download_entry env cfg cache oid bt
      (_clean_name p.human_name)) p.downloads = _
    rw [hdl, foldSteps_cons_stop rest hne3]
  · intro env cfg cache l1 l2 k h1 h2
    have hne4 : (process_order_id env cfg cache k).2 ≠ Flow.normal := by
      rw [h2]; simp
    have key := foldSteps_prefix_stop l1 k l2 h1 hne4
    rw [← h2]
    exact key

/-- Environment in which every body download is cut short by a
`KeyboardInterrupt` and the one purchase key resolves to an order. -/
def fixEnvInt : Env := { fixEnv with
  dl := fun _ => DLOutcome.interrupt
  fetchOrder := fun _ => some ⟨"Bundle", [fixProduct]⟩ }

theorem keyboard_interrupt_stops_run_witness :
    (process_download DLOutcome.interrupt
      ⟨"o1", "game.zip", some "LM2", some "bbb", none⟩
      "B/Game/game.zip" "http://cdn/game.zip?k=1" (some "2023-01-01") true "NOW").2
      = Flow.sysExit
    ∧ applyActions (fun _ => none)
        (process_download DLOutcome.interrupt
          ⟨"o1", "game.zip", some "LM2", some "bbb", none⟩
          "B/Game/game.zip" "http://cdn/game.zip?k=1" (some "2023-01-01") true
          "NOW").1 "B/Game/game.zip" = none
    ∧ run_orders fixEnvInt fixCfgUpd [] ["k1", "k2"]
      = ((run_orders fixEnvInt fixCfgUpd [] []).1
          ++ (process_order_id fixEnvInt fixCfgUpd [] "k1").1, Flow.sysExit) := by
  have h := keyboard_interrupt_stops_run
  have ha := h.1 ⟨"o1", "game.zip", some "LM2", some "bbb", none⟩
    "B/Game/game.zip" "http://cdn/game.zip?k=1" (some "2023-01-01") true "NOW"
    (fun _ => none)
  refine ⟨ha.1, ha.2.2.1, ?_⟩
  exact h.2.2 fixEnvInt fixCfgUpd [] [] ["k2"] "k1"
    (by intro q hq; exact absurd hq (List.not_mem_nil q)) (by decide)


/-- C9: filter correctness.  (i) `__init__` turns a `platform_include`
of `None` or one containing `'all'` into the empty list; (ii) an empty
`platform_include` disables platform filtering; (iii) a platform whose
lower-cased form is not in a non-empty `platform_include` is rejected,
and a rejected platform's download entry produces no fetch attempt;
(iv) with `ext_include` empty, membership of the lower-cased extension
in `ext_exclude` alone decides (so an excluded extension is rejected);
(v) with `ext_include` non-empty, membership in `ext_include` alone
decides; and a rejected file produces no fetch attempt on either the
order path or the trove path. -/
theorem filter_correctness :
    (init_platform_include none = []
      ∧ ∀ l : List String, l.contains "all" = true →
          init_platform_include (some l) = [])
    ∧ (∀ plat, should_download_platform [] plat = true)
    ∧ (∀ (pi2 : List String) (plat : String), pi2 ≠ [] →
        pi2.contains (lowerStr plat) = false →
        should_download_platform pi2 plat = false)
    ∧ (∀ (ei ee : List String) (ext : String), ei ≠ [] →
        should_download_file_type ei ee ext = ei.contains (lowerStr ext))
    ∧ (∀ (ee : List String) (ext : String),
        should_download_file_type [] ee ext = !ee.contains (lowerStr ext))
    ∧ (∀ (env : Env) (cfg : Config) (cache : List CsvCacheData)
        (oid folder : String) (ft : FileType) (ct url : String),
        lookup_url ft.url ct = some url →
        should_download_file_type cfg.ext_include cfg.ext_exclude
          (lastAfter '.' (urlFilename url)) = false →
        process_content_type env cfg cache oid folder ft ct = ([], Flow.normal))
    ∧ (∀ (env : Env) (cfg : Config) (cache : List CsvCacheData)
        (oid bt pt : String) (de : DownloadEntry),
        should_download_platform cfg.platform_include de.platform = false →
        process_download_entry env cfg cache oid bt pt de = ([], Flow.normal))
    ∧ (∀ (env : Env) (cfg : Config) (cache : List CsvCacheData)
        (title : String) (da : Option String) (pd : String × TroveDownload),
        (should_download_platform cfg.platform_include pd.1 = false ∨
          should_download_file_type cfg.ext_include cfg.ext_exclude
            (lastAfter '.' (lastAfter '/' pd.2.urlWeb)) = false) →
        process_trove_entry env cfg cache title da pd = ([], Flow.normal)) := by
  refine ⟨⟨rfl, ?_⟩, ?_, ?_, ?_, ?_, ?_, ?_, ?_⟩
  · intro l hl
    show (if l.contains "all" then [] else l.map lowerStr) = []
    rw [hl]
    rfl
  · intro plat
    simp [should_download_platform]
  · intro pi2 plat hne hc
    cases pi2 with
    | nil => exact absurd rfl hne
    | cons a as =>
      show (if !(a :: as).isEmpty && !((a :: as).contains (lowerStr plat))
        then false else true) = false
      rw [hc]
      rfl
  · intro ei ee ext hne
    cases ei with
    | nil => exact absurd rfl hne
    | cons a as => simp [should_download_file_type]
  · intro ee ext
    cases ee <;> simp [should_download_file_type]
  · intro env cfg cache oid folder ft ct url hurl hext
    simp [process_content_type, hurl, hext]
  · intro env cfg cache oid bt pt de hplat
    simp [process_download_entry, hplat]
  · intro env cfg cache title da pd h
    rcases h with hplat | hext
    · simp [process_trove_entry, hplat]
    · simp [process_trove_entry, hext]

/-- Configuration excluding the `zip` extension (upper-case in the raw
option list, lower-cased by `__init__`). -/
def fixCfgExt : Config := { fixCfg with
  ext_exclude := init_ext_list (some ["ZIP"]) }

theorem filter_correctness_witness :
    init_platform_include (some ["macOS", "all"]) = []
    ∧ should_download_platform [] "Windows" = true
    ∧ should_download_platform ["linux"] "Windows" = false
    ∧ should_download_file_type ["pdf"] [] "PDF" = true
    ∧ should_download_file_type [] (init_ext_list (some ["ZIP"])) "Zip" = false
    ∧ process_content_type fixEnv fixCfgExt fixCache "o1" "B/Game" fixFT "web"
        = ([], Flow.normal)
    ∧ process_download_entry fixEnv
        { fixCfg with platform_include := ["linux"] } fixCache "o1" "B" "Game"
        ⟨"windows", [fixFT]⟩ = ([], Flow.normal)
    ∧ process_trove_entry fixEnv fixCfgExt fixCache "X" none
        ("windows", ⟨"http://cdn/dir/x.zip", "mx", some "2000", none, some "nnn"⟩)
        = ([], Flow.normal) := by
  have h := filter_correctness
  refine ⟨h.1.2 ["macOS", "all"] (by decide), h.2.1 "Windows", ?_, ?_, ?_, ?_, ?_, ?_⟩
  · exact h.2.2.1 ["linux"] "Windows" (by decide) (by decide)
  · have := h.2.2.2.1 ["pdf"] [] "PDF" (by decide)
    rw [this]; decide
  · have := h.2.2.2.2.1 (init_ext_list (some ["ZIP"])) "Zip"
    rw [this]; decide
  · exact h.2.2.2.2.2.1 fixEnv fixCfgExt fixCache "o1" "B/Game" fixFT "web"
      "http://cdn/game.zip?k=1" (by decide) (by decide)
  · exact h.2.2.2.2.2.2.1 fixEnv
      { fixCfg with platform_include := ["linux"] } fixCache "o1" "B" "Game"
      ⟨"windows", [fixFT]⟩ (by decide)
  · exact h.2.2.2.2.2.2.2 fixEnv fixCfgExt fixCache "X" none
      ("windows", ⟨"http://cdn/dir/x.zip", "mx", some "2000", none, some "nnn"⟩)
      (Or.inr (by decide))


/-- A file tree holding one previously-downloaded file at the canonical
path `Games/Game/game.zip`. -/
def fixFS : FS :=
  fun q => if q = "Games/Game/game.zip" then some (FVal.full "old") else none

/-- C4 counterexample: with a rename hint set (a change was detected for
a key with a prior record), `_process_download` renames the old file
aside BEFORE attempting the download; after a mid-download failure the
old file therefore does not remain untouched and unrenamed at the
canonical path — the canonical path is empty and the old content sits at
the date-suffixed path. -/
theorem download_failure_old_file_was_renamed :
    ¬ (applyActions fixFS
        (process_download DLOutcome.failure
          ⟨"o1", "game.zip", some "LM2", some "m", none⟩
          "Games/Game/game.zip" "http://cdn/game.zip" (some "2023-01-01") true
          "NOW").1 "Games/Game/game.zip" = some (FVal.full "old"))
    ∧ applyActions fixFS
        (process_download DLOutcome.failure
          ⟨"o1", "game.zip", some "LM2", some "m", none⟩
          "Games/Game/game.zip" "http://cdn/game.zip" (some "2023-01-01") true
          "NOW").1 "Games/Game/game [2023-01-01].zip" = some (FVal.full "old") := by
  decide

/-- C4 (amended): after a mid-download failure or interrupt no file —
in particular no partial file — remains at the canonical destination
path, and no completion event is produced; with no rename hint every
other path (so any old file there) is untouched; with a rename hint the
old file at the canonical path has already been renamed aside before the
download and survives at the date-suffixed path, not at the canonical
path. -/
theorem download_failure_atomicity
    (out : DLOutcome) (cd : CsvCacheData) (p tag : String) (hq : Bool)
    (now : String) (fs : FS)
    (hout : out = DLOutcome.failure ∨ out = DLOutcome.interrupt) :
    ((∀ r, Action.queuePut r ∉ (process_download out cd p tag none hq now).1)
      ∧ applyActions fs (process_download out cd p tag none hq now).1 p = none
      ∧ (∀ q, q ≠ p →
          applyActions fs (process_download out cd p tag none hq now).1 q = fs q))
    ∧ (∀ (d : String) (v : FVal), fs p = some v → renamedPath p d ≠ p →
        (∀ r, Action.queuePut r ∉ (process_download out cd p tag (some d) hq now).1)
        ∧ applyActions fs (process_download out cd p tag (some d) hq now).1 p = none
        ∧ applyActions fs (process_download out cd p tag (some d) hq now).1
            (renamedPath p d) = some v) := by
  rcases hout with hout | hout <;> subst hout <;>
    refine ⟨⟨?_, ?_, ?_⟩, ?_⟩
  · intro r
    simp [process_download]
  · simp [process_download, applyActions, applyAction]
  · intro q hqp
    simp [process_download, applyActions, applyAction, hqp]
  · intro d v hv hne
    refine ⟨?_, ?_, ?_⟩
    · intro r
      simp [process_download]
    · simp [process_download, applyActions, applyAction, hv]
    · simp [process_download, applyActions, applyAction, hv, hne]
  · intro r
    simp [process_download]
  · simp [process_download, applyActions, applyAction]
  · intro q hqp
    simp [process_download, applyActions, applyAction, hqp]
  · intro d v hv hne
    refine ⟨?_, ?_, ?_⟩
    · intro r
      simp [process_download]
    · simp [process_download, applyActions, applyAction, hv]
    · simp [process_download, applyActions, applyAction, hv, hne]

theorem download_failure_atomicity_witness :
    applyActions fixFS
      (process_download DLOutcome.failure
        ⟨"o1", "game.zip", some "LM2", some "m", none⟩
        "Games/Game/game.zip" "http://cdn/game.zip" (some "2023-01-01") true
        "NOW").1 "Games/Game/game.zip" = none
    ∧ applyActions fixFS
        (process_download DLOutcome.failure
          ⟨"o1", "game.zip", some "LM2", some "m", none⟩
          "Games/Game/game.zip" "http://cdn/game.zip" (some "2023-01-01") true
          "NOW").1 (renamedPath "Games/Game/game.zip" "2023-01-01")
        = some (FVal.full "old") := by
  have h := (download_failure_atomicity DLOutcome.failure
    ⟨"o1", "game.zip", some "LM2", some "m", none⟩
    "Games/Game/game.zip" "http://cdn/game.zip" true "NOW" fixFS
    (Or.inl rfl)).2 "2023-01-01" (FVal.full "old") (by decide) (by decide)
  exact ⟨h.2.1, h.2.2⟩

/-- C3: in `_process_trove_product` the record's `remote_modified_date`
is overwritten with the new upload token BEFORE the rename date string is
computed from it, so the superseded file is renamed with a date derived
from the NEW remote token, not from the previous record's token — here
the cached token is `"1000"`, the new one `"2000"`, the epoch formatter
is the identity, and the rename carries `"2000"`. -/
theorem trove_rename_date_uses_new_token :
    (process_trove_entry
      { fixEnv with fmtEpoch := fun s => s } fixCfgUpd
      [⟨"trove", "y.zip", some "1000", some "aaa", none⟩] "T" none
      ("windows", ⟨"http://cdn/y.zip", "my", some "2000", none, some "bbb"⟩)).1
      = [Action.signRequest "my" "y.zip",
         Action.fetchBody "https://signed/file",
         Action.renameOld "Humble Trove/T/y.zip" "2000",
         Action.writeFile "Humble Trove/T/y.zip" "https://signed/file"]
    ∧ Action.renameOld "Humble Trove/T/y.zip" "1000"
        ∉ (process_trove_entry
            { fixEnv with fmtEpoch := fun s => s } fixCfgUpd
            [⟨"trove", "y.zip", some "1000", some "aaa", none⟩] "T" none
            ("windows",
              ⟨"http://cdn/y.zip", "my", some "2000", none, some "bbb"⟩)).1 := by
  decide

/-- C6: the trove path calls `_process_download` without passing the
completion queue: on a successful trove download the engine hits
`multiprocess_queue.put` with `multiprocess_queue = None`, raising an
uncaught `AttributeError` — the run crashes and no completion event is
ever placed on a queue; the order path, by contrast, does enqueue the
updated record. -/
theorem trove_success_has_no_completion_event :
    (process_trove_entry fixEnv fixCfgUpd
      [⟨"trove", "z.zip", some "100", some "m1", none⟩] "U" none
      ("windows", ⟨"http://cdn/z.zip", "mz", some "200", none, some "m2"⟩)).2
      = Flow.attrError
    ∧ (∀ r, Action.queuePut r
        ∉ (process_trove_entry fixEnv fixCfgUpd
            [⟨"trove", "z.zip", some "100", some "m1", none⟩] "U" none
            ("windows",
              ⟨"http://cdn/z.zip", "mz", some "200", none, some "m2"⟩)).1)
    ∧ Action.queuePut ⟨"o1", "game.zip", some "LM2", some "bbb", some "NOW"⟩
        ∈ (process_content_type fixEnv fixCfgUpd fixCache "o1" "B/Game"
            fixFT "web").1 := by
  have htr : (process_trove_entry fixEnv fixCfgUpd
      [⟨"trove", "z.zip", some "100", some "m1", none⟩] "U" none
      ("windows", ⟨"http://cdn/z.zip", "mz", some "200", none, some "m2"⟩)).1
      = [Action.signRequest "mz" "z.zip",
         Action.fetchBody "https://signed/file",
         Action.renameOld "Humble Trove/U/z.zip" "200-e",
         Action.writeFile "Humble Trove/U/z.zip" "https://signed/file"] := by
    decide
  refine ⟨by decide, ?_, by decide⟩
  intro r hr
  rw [htr] at hr
  simp at hr


lemma dropWhile_suffix_ex (p : Char → Bool) :
    ∀ l : List Char, ∃ t, l = t ++ l.dropWhile p
  | [] => ⟨[], rfl⟩
  | a :: l => by
    rw [List.dropWhile_cons]
    by_cases hpa : p a
    · rw [if_pos hpa]
      obtain ⟨t, ht⟩ := dropWhile_suffix_ex p l
      exact ⟨a :: t, by rw [List.cons_append, ← ht]⟩
    · rw [if_neg hpa]
      exact ⟨[], rfl⟩

lemma rstripP_pre_ex (p : Char → Bool) (l : List Char) :
    ∃ t, l = rstripP p l ++ t := by
  obtain ⟨t, ht⟩ := dropWhile_suffix_ex p l.reverse
  refine ⟨t.reverse, ?_⟩
  have h2 := congrArg List.reverse ht
  rw [List.reverse_reverse, List.reverse_append] at h2
  exact h2

lemma head_false_of_dropWhile {p : Char → Bool} :
    ∀ {l : List Char} {c : Char}, (l.dropWhile p).head? = some c → p c = false
  | [], c, h => by simp at h
  | a :: l, c, h => by
    rw [List.dropWhile_cons] at h
    by_cases hpa : p a
    · rw [if_pos hpa] at h
      exact head_false_of_dropWhile h
    · rw [if_neg hpa] at h
      simp only [List.head?_cons, Option.some.injEq] at h
      subst h
      simpa using hpa

lemma head_some_of_pre {l1 l2 : List Char} {c : Char}
    (h : ∃ t, l2 = l1 ++ t) (hh : l1.head? = some c) : l2.head? = some c := by
  obtain ⟨t, rfl⟩ := h
  cases l1 with
  | nil => simp at hh
  | cons a l =>
    simp only [List.head?_cons, Option.some.injEq] at hh
    simp [hh]

lemma mem_of_head_some {l : List Char} {c : Char} (h : l.head? = some c) :
    c ∈ l := by
  cases l with
  | nil => simp at h
  | cons a t =>
    simp only [List.head?_cons, Option.some.injEq] at h
    subst h
    exact List.mem_cons_self a t

lemma mem_of_getLast_some {l : List Char} {c : Char} (h : l.getLast? = some c) :
    c ∈ l := by
  have h2 : l.reverse.head? = some c := by
    rw [ List.head?_reverse]
    exact h
  exact List.mem_reverse.mp (mem_of_head_some h2)

lemma mem_of_rstripP {p : Char → Bool} {l : List Char} {c : Char}
    (h : c ∈ rstripP p l) : c ∈ l := by
  obtain ⟨t, ht⟩ := rstripP_pre_ex p l
  rw [ht]
  exact List.mem_append_left t h

lemma mem_of_dropWhile {p : Char → Bool} {l : List Char} {c : Char}
    (h : c ∈ l.dropWhile p) : c ∈ l := by
  obtain ⟨t, ht⟩ := dropWhile_suffix_ex p l
  rw [ht]
  exact List.mem_append_right t h

lemma dropWhile_eq_self_of_head {p : Char → Bool} {l : List Char}
    (h : ∀ c, l.head? = some c → p c = false) : l.dropWhile p = l := by
  cases l with
  | nil => rfl
  | cons a t =>
    have hpa : p a = false := h a rfl
    rw [List.dropWhile_cons, if_neg (by simp [hpa])]

lemma rstripP_eq_self_of_last {p : Char → Bool} {l : List Char}
    (h : ∀ c, l.getLast? = some c → p c = false) : rstripP p l = l := by
  have hd : l.reverse.dropWhile p = l.reverse :=
    dropWhile_eq_self_of_head (fun c hc =>
      h c (by rwa [ List.head?_reverse] at hc))
  unfold rstripP
  rw [hd, List.reverse_reverse]

lemma map_eq_self_of {f : Char → Char} :
    ∀ {l : List Char}, (∀ c ∈ l, f c = c) → l.map f = l
  | [], _ => rfl
  | a :: t, h => by
    rw [List.map_cons, h a (List.mem_cons_self a t),
      map_eq_self_of (fun c hc => h c (List.mem_cons_of_mem a hc))]

lemma flatMap_eq_self_of {f : Char → List Char} :
    ∀ {l : List Char}, (∀ c ∈ l, f c = [c]) → l.flatMap f = l
  | [], _ => rfl
  | a :: t, h => by
    rw [List.flatMap_cons, h a (List.mem_cons_self a t),
      flatMap_eq_self_of (fun c hc => h c (List.mem_cons_of_mem a hc))]
    rfl

lemma clean_name_chars (s : String) :
    ∀ c ∈ (_clean_name s).data, allowedPred c = true := by
  intro c hc
  have hc2 : c ∈ rstripDot (stripWs (keepAllowed (replaceColon (replacePlus s.data)))) := hc
  have hc3 := mem_of_dropWhile (mem_of_rstripP (mem_of_rstripP hc2))
  exact (List.mem_filter.mp hc3).2

lemma clean_head_not_ws {m : List Char} {c : Char}
    (h : (rstripDot (stripWs m)).head? = some c) : c.isWhitespace = false := by
  have h1 : (stripWs m).head? = some c :=
    head_some_of_pre (rstripP_pre_ex _ (stripWs m)) h
  have h2 : (lstripWs m).head? = some c :=
    head_some_of_pre (rstripP_pre_ex _ (lstripWs m)) h1
  exact head_false_of_dropWhile h2

lemma clean_last_not_dot {m : List Char} {c : Char}
    (h : (rstripDot (stripWs m)).getLast? = some c) : c ≠ '.' := by
  have h1 : (rstripDot (stripWs m)).reverse.head? = some c := by
    rw [ List.head?_reverse]
    exact h
  have hrev : (rstripDot (stripWs m)).reverse
      = (stripWs m).reverse.dropWhile (fun c => c = '.') := by
    show ((stripWs m).reverse.dropWhile (fun c => c = '.')).reverse.reverse = _
    rw [List.reverse_reverse]
  rw [hrev] at h1
  have h3 := head_false_of_dropWhile h1
  simpa using h3

lemma allowed_ws_eq_space {c : Char} (ha : allowedPred c = true)
    (hw : c.isWhitespace = true) : c = ' ' := by
  have hd : c = ' ' ∨ c = '\t' ∨ c = '\r' ∨ c = '\n' := by
    simp [Char.isWhitespace] at hw
    tauto
  rcases hd with h | h | h | h
  · exact h
  all_goals (subst h; exact absurd ha (by decide))

lemma clean_name_stable (s : String)
    (hlast : (_clean_name s).data.getLast? ≠ some ' ') :
    _clean_name (_clean_name s) = _clean_name s := by
  have hchars := clean_name_chars s
  have hhead : ∀ c, (_clean_name s).data.head? = some c →
      c.isWhitespace = false := fun c hc => clean_head_not_ws hc
  have hlastdot : ∀ c, (_clean_name s).data.getLast? = some c → c ≠ '.' :=
    fun c hc => clean_last_not_dot hc
  have hlastws : ∀ c, (_clean_name s).data.getLast? = some c →
      c.isWhitespace = false := by
    intro c hc
    by_contra hbad
    have hw : c.isWhitespace = true := by
      cases hx : c.isWhitespace with
      | false => exact absurd hx hbad
      | true => rfl
    have hsp := allowed_ws_eq_space (hchars c (mem_of_getLast_some hc)) hw
    rw [hsp] at hc
    exact hlast hc
  have h1 : replacePlus (_clean_name s).data = (_clean_name s).data :=
    map_eq_self_of (fun c hc => by
      have ha := hchars c hc
      have hne : c ≠ '+' := fun he => by
        subst he
        exact absurd ha (by decide)
      simp [hne])
  have h2 : replaceColon (_clean_name s).data = (_clean_name s).data :=
    flatMap_eq_self_of (fun c hc => by
      have ha := hchars c hc
      have hne : c ≠ ':' := fun he => by
        subst he
        exact absurd ha (by decide)
      simp [hne])
  have h3 : keepAllowed (_clean_name s).data = (_clean_name s).data :=
    List.filter_eq_self.mpr (fun c hc => hchars c hc)
  have h4 : lstripWs (_clean_name s).data = (_clean_name s).data :=
    dropWhile_eq_self_of_head hhead
  have h5 : rstripP Char.isWhitespace (_clean_name s).data
      = (_clean_name s).data := rstripP_eq_self_of_last hlastws
  have h6 : rstripDot (_clean_name s).data = (_clean_name s).data :=
    rstripP_eq_self_of_last (fun c hc => by simpa using hlastdot c hc)
  show String.mk (rstripDot (stripWs (keepAllowed (replaceColon
    (replacePlus (_clean_name s).data))))) = _clean_name s
  rw [h1, h2, h3]
  show String.mk (rstripDot (rstripP Char.isWhitespace
    (lstripWs (_clean_name s).data))) = _clean_name s
  rw [h4, h5, h6]

/-- C10 counterexample: `_clean_name` is not idempotent — on `"a ."` the
first pass strips nothing, then `rstrip('.')` exposes a trailing space
(`"a "`), and a second pass strips that space (`"a"`). -/
theorem clean_name_not_idempotent :
    _clean_name (_clean_name "a .") ≠ _clean_name "a ." := by decide

/-- C10 (amended): every character of `_clean_name`'s output is
alphanumeric or one of {space, underscore, period, hyphen, brackets};
and `_clean_name` is idempotent on every input whose cleaned form does
not end in a space (the sole failure mode: `rstrip('.')` can expose a
trailing space that a second pass would strip). -/
theorem clean_name_charset_and_conditional_idempotence (s : String) :
    (∀ c ∈ (_clean_name s).data,
      (c.isAlpha || c.isDigit || allowed_chars.contains c) = true)
    ∧ ((_clean_name s).data.getLast? ≠ some ' ' →
        _clean_name (_clean_name s) = _clean_name s) :=
  ⟨fun c hc => clean_name_chars s c hc, fun h => clean_name_stable s h⟩

theorem clean_name_charset_and_conditional_idempotence_witness :
    (∀ c ∈ (_clean_name "Game: Collector+Edition v1.2").data,
      (c.isAlpha || c.isDigit || allowed_chars.contains c) = true)
    ∧ _clean_name (_clean_name "Game: Collector+Edition v1.2")
        = _clean_name "Game: Collector+Edition v1.2" := by
  have h := clean_name_charset_and_conditional_idempotence
    "Game: Collector+Edition v1.2"
  exact ⟨h.1, h.2 (by decide)⟩

end DL
